import Mathlib

set_option maxRecDepth 10000

/-!
Verification of the resilience/correctness core of an automated futures-trading
execution layer: a shallow embedding in Lean 4 of the risk governor
(`backend/risk/risk_manager.py`), the rate limiter and retrying request
pipeline (`backend/api/topstepx_client_v2.py`), the tagged result type
(`backend/api/result.py`), the credential authority
(`backend/api/auth_manager.py`) and the realtime event fan-out
(`backend/api/websocket_handler.py`), together with proofs and refutations of
the specified properties.

Python floats are embedded as rationals (`ℚ`); `int(x)` truncation toward zero
is `pyTrunc`; the ambient wall clock (`datetime.now`, `time.time`) is passed
explicitly; `async` methods that mutate `self` become explicit state-passing
functions.
-/

/-- Python `int(q)` on a float: truncation toward zero (`Int.div` is
T-division, which is exactly that on `num/den` in lowest terms). -/
def pyTrunc (q : ℚ) : ℤ :=
  Int.tdiv q.num q.den

/-- Python `abs` on a float. -/
def pyAbs (q : ℚ) : ℚ :=
  if q < 0 then -q else q

/-- Decidable equality of raised-or-returned outcomes. -/
instance exceptDecEq {α β : Type} [DecidableEq α] [DecidableEq β] :
    DecidableEq (Except α β) := fun x y =>
  match x, y with
  | .ok a, .ok b =>
    if h : a = b then isTrue (by rw [h]) else isFalse (by simp [h])
  | .ok _, .error _ => isFalse (by simp)
  | .error _, .ok _ => isFalse (by simp)
  | .error a, .error b =>
    if h : a = b then isTrue (by rw [h]) else isFalse (by simp [h])

namespace RiskManager

/-- The slice of `config/settings.py` consulted by `RiskManager`
(account size, loss/drawdown limits, sizing parameters). -/
structure Settings where
  account_size : ℚ
  daily_loss_limit : ℚ
  max_drawdown_limit : ℚ
  consistency_threshold : ℚ
  risk_per_trade_percent : ℚ
  max_position_size : ℤ
  min_position_size : ℤ
deriving Repr, DecidableEq

/-- The mutable risk-tracking fields of `RiskManager.__init__`.
`current_date` is an abstract day number (a new calendar date in the
configured timezone is a different number). -/
structure RiskState where
  high_water_mark : ℚ
  daily_pnl : ℚ
  total_pnl : ℚ
  best_day_profit : ℚ
  consecutive_losses : ℕ
  trading_halted : Bool
  trading_halted_reason : String
  current_date : Option ℕ
  daily_start_balance : ℚ
deriving Repr, DecidableEq

/-- A wall-clock reading in the configured timezone: `datetime.now(self.ct_tz)`
projected to the hour/minute fields the code reads. -/
structure ClockTime where
  hour : ℕ
  minute : ℕ
deriving Repr, DecidableEq

/-- `RiskManager._is_trading_hours`: 5:00 PM CT to 3:10 PM CT. -/
def isTradingHours (now : ClockTime) : Bool :=
  if 17 ≤ now.hour ∨ now.hour < 15 then true
  else if now.hour = 15 ∧ now.minute ≤ 10 then true
  else false

/-- `RiskManager._is_near_market_close`: at/after 3:05 PM CT, or 2:45 PM CT
onwards. -/
def isNearMarketClose (now : ClockTime) : Bool :=
  if 15 < now.hour ∨ (now.hour = 15 ∧ 5 ≤ now.minute) then true
  else if now.hour = 14 ∧ 45 ≤ now.minute then true
  else false

/-- `RiskManager._halt_trading`: latch the halt flag with its first reason. -/
def haltTrading (s : RiskState) (reason : String) : RiskState :=
  if s.trading_halted then s
  else { s with trading_halted := true, trading_halted_reason := reason }

/-- Result of `RiskManager.can_trade`: the returned boolean and the
(possibly latched) post-state. -/
structure CanTradeResult where
  allowed : Bool
  state : RiskState
deriving Repr, DecidableEq

/-- `RiskManager.can_trade`, with the ambient clock passed explicitly. -/
def canTrade (cfg : Settings) (s : RiskState) (now : ClockTime) : CanTradeResult :=
  if s.trading_halted then ⟨false, s⟩
  else if ¬ isTradingHours now then ⟨false, s⟩
  else if cfg.daily_loss_limit * (95 / 100) ≤ pyAbs s.daily_pnl then
    ⟨false, haltTrading s "Approaching daily loss limit"⟩
  else
    have current_balance := cfg.account_size + s.total_pnl
    have max_allowed_loss := s.high_water_mark - cfg.max_drawdown_limit
    if current_balance ≤ max_allowed_loss * (105 / 100) then
      ⟨false, haltTrading s "Approaching trailing max drawdown"⟩
    else if 3 ≤ s.consecutive_losses then
      ⟨false, haltTrading s "3 consecutive losses - circuit breaker"⟩
    else ⟨true, s⟩

/-- `RiskManager._get_tick_value`. -/
def getTickValue (symbol : String) : ℚ :=
  if symbol = "MES" then 5
  else if symbol = "MNQ" then 2
  else if symbol = "MGC" then 1
  else 1

/-- `RiskManager._get_max_contracts_for_balance`: the $50K Combine scaling
plan. -/
def getMaxContractsForBalance (balance : ℚ) : ℤ :=
  if balance < 1500 then 2
  else if balance < 3000 then 3
  else if balance < 5000 then 4
  else 5

/-- The trade signal fields read by `calculate_position_size`. -/
structure Signal where
  entry_price : ℚ
  stop_loss : ℚ
  symbol : String
deriving Repr, DecidableEq

/-- `RiskManager.calculate_position_size`;
`unrealized` is `position_tracker.get_total_unrealized_pnl()`. -/
def calculatePositionSize (cfg : Settings) (s : RiskState) (unrealized : ℚ)
    (signal : Signal) : ℤ :=
  have current_balance := cfg.account_size + s.total_pnl + unrealized
  have risk_per_trade := current_balance * (cfg.risk_per_trade_percent / 100)
  have stop_distance := pyAbs (signal.entry_price - signal.stop_loss)
  if stop_distance = 0 then 0
  else
    have tick_value := getTickValue signal.symbol
    have risk_per_contract := stop_distance * tick_value
    if risk_per_contract = 0 then 0
    else
      have contracts0 := pyTrunc (risk_per_trade / risk_per_contract)
      have max_contracts := getMaxContractsForBalance current_balance
      have contracts1 := min contracts0 (min max_contracts cfg.max_position_size)
      have contracts2 := max contracts1 cfg.min_position_size
      have remaining_daily_risk := (cfg.daily_loss_limit - pyAbs s.daily_pnl) * (8 / 10)
      if remaining_daily_risk < risk_per_contract * (contracts2 : ℚ) then
        max (pyTrunc (remaining_daily_risk / risk_per_contract)) 0
      else contracts2

/-- `RiskManager.update_pnl` (the consistency-rule branch only logs). -/
def updatePnl (cfg : Settings) (s : RiskState) (realized_pnl : ℚ) : RiskState :=
  have total := s.total_pnl + realized_pnl
  have daily := s.daily_pnl + realized_pnl
  have current_balance := cfg.account_size + total
  have hwm := if s.high_water_mark < current_balance then current_balance
              else s.high_water_mark
  have best := if s.best_day_profit < daily then daily else s.best_day_profit
  have losses := if realized_pnl < 0 then s.consecutive_losses + 1 else 0
  { s with total_pnl := total, daily_pnl := daily, high_water_mark := hwm,
           best_day_profit := best, consecutive_losses := losses }

/-- `RiskManager.reset_daily_tracking`, with `today` the current calendar
date in the configured timezone. -/
def resetDailyTracking (cfg : Settings) (s : RiskState) (today : ℕ) : RiskState :=
  if s.current_date ≠ some today then
    { s with current_date := some today, daily_pnl := 0,
             daily_start_balance := cfg.account_size + s.total_pnl,
             consecutive_losses := 0, trading_halted := false,
             trading_halted_reason := "" }
  else s

/-- Default values of the relevant `Settings` fields
(`config/settings.py`: $50K Combine). -/
def defaultSettings : Settings :=
  { account_size := 50000, daily_loss_limit := 1000, max_drawdown_limit := 2000,
    consistency_threshold := 1 / 2, risk_per_trade_percent := 3 / 2,
    max_position_size := 5, min_position_size := 1 }

/-- The freshly initialized state of `RiskManager.__init__`. -/
def initialState (cfg : Settings) : RiskState :=
  { high_water_mark := cfg.account_size, daily_pnl := 0, total_pnl := 0,
    best_day_profit := 0, consecutive_losses := 0, trading_halted := false,
    trading_halted_reason := "", current_date := none,
    daily_start_balance := cfg.account_size }

/-- A fresh default account after a single-day realized profit of 950
(used as a concrete instance below). -/
def profitState : RiskState :=
  { (initialState defaultSettings) with
    daily_pnl := 950,
    total_pnl := 950 }

end RiskManager
namespace RateLimiter

/-- The `while self.requests and self.requests[0] < cutoff: popleft()` pattern
of `RateLimiter.acquire` (both prune loops). -/
def pruneQueue (cutoff : ℚ) (q : List ℚ) : List ℚ :=
  q.dropWhile (fun ts => decide (ts < cutoff))

/-- Result of one `acquire()` call: the updated timestamp deque and the time
at which the call was admitted (the timestamp it appended). -/
structure AcqResult where
  queue : List ℚ
  admitted : ℚ
deriving Repr, DecidableEq

/-- `RateLimiter.acquire`, idealized deterministic timing: `now` is the
`time.time()` reading at entry, `asyncio.sleep(wait_time)` wakes exactly
`wait_time` later, and the post-sleep `time.time()` readings equal the wake
time.  (With `max_requests = 0` the Python code would raise `IndexError` at
`self.requests[0]`; that branch is modelled as an admit and excluded by the
`1 ≤ N` hypothesis of every theorem, matching the constructed capacities 50
and 200.) -/
def acquire (maxRequests : ℕ) (timeWindow : ℚ) (q : List ℚ) (now : ℚ) :
    AcqResult :=
  let q1 := pruneQueue (now - timeWindow) q
  if maxRequests ≤ q1.length then
    match q1 with
    | [] => ⟨q1 ++ [now], now⟩
    | oldest :: _ =>
      let wait := timeWindow - (now - oldest)
      if 0 < wait then
        let wake := now + wait
        ⟨pruneQueue (wake - timeWindow) q1 ++ [wake], wake⟩
      else ⟨q1 ++ [now], now⟩
  else ⟨q1 ++ [now], now⟩

/-- Run a sequence of `acquire()` calls, `calls` being the successive
`time.time()` readings at entry; returns the final queue and the list of
admission times. -/
def runAcquires (N : ℕ) (W : ℚ) : List ℚ → List ℚ → List ℚ × List ℚ
  | q, [] => (q, [])
  | q, t :: ts =>
    let r := acquire N W q t
    let rest := runAcquires N W r.queue ts
    (rest.1, r.admitted :: rest.2)

/-- Admission times of a call sequence started on a fresh limiter. -/
def admissions (N : ℕ) (W : ℚ) (calls : List ℚ) : List ℚ :=
  (runAcquires N W [] calls).2

/-- The clock discipline of a real monotone clock that advances between
calls: each `acquire()` entry reading is strictly later than the previous
admission time. -/
def spacedFrom (N : ℕ) (W : ℚ) (q : List ℚ) (last : Option ℚ) :
    List ℚ → Bool
  | [] => true
  | t :: ts =>
    (match last with
     | none => true
     | some p => decide (p < t)) &&
    spacedFrom N W (acquire N W q t).queue (some (acquire N W q t).admitted) ts

/-- Number of admissions falling in the half-open sliding window
`(x, x + W]`. -/
def windowCount (x W : ℚ) (A : List ℚ) : ℕ :=
  A.countP (fun a => decide (x < a) && decide (a ≤ x + W))

/-- Any `N + 1` admissions that are `N` apart in the admission sequence span
at least the window length `W`. -/
def Spread (N : ℕ) (W : ℚ) (A : List ℚ) : Prop :=
  ∀ i : ℕ, ∀ h : i + N < A.length, A[i] + W ≤ A[i + N]

end RateLimiter

namespace ApiResult

/-- The JSON-body fields `_request` inspects (`errorMessage`, `message`,
`errorCode`), plus the remaining parsed content, abstracted as a string. -/
structure JsonBody where
  errorMessage : Option String
  message : Option String
  errorCode : Option ℤ
  rest : String
deriving Repr, DecidableEq

/-- `api/result.py`: the two-variant result `Success | Error`. -/
inductive Result where
  | success (data : JsonBody) (status_code : ℕ)
  | error (message : String) (status_code : ℕ) (error_code : Option ℤ)
      (details : Option JsonBody)
deriving Repr, DecidableEq

/-- `Success.is_success` / `Error.is_success`. -/
def Result.is_success : Result → Bool
  | .success _ _ => true
  | .error _ _ _ _ => false

/-- `Success.is_error` / `Error.is_error`. -/
def Result.is_error : Result → Bool
  | .success _ _ => false
  | .error _ _ _ _ => true

/-- `result.py` `auth_error`: an Error with status 401. -/
def authError (message : String) : Result :=
  .error message 401 none none

/-- `result.py` `upstream_error`: an Error with the given 5xx status. -/
def upstreamError (message : String) (status : ℕ) : Result :=
  .error message status none none

/-- Python `a or b or c` over optional JSON string fields: `None` and the
empty string are falsy. -/
def pyOrStr (a : Option String) (b : String) : String :=
  match a with
  | some s => if s = "" then b else s
  | none => b

end ApiResult

namespace TopstepXClientV2

/-- Everything the upstream can do on one `session.request` attempt.
`ok` carries the HTTP status, the parsed `Retry-After` header (when present),
the response text, and `jsonBody = none` when `response.json()` raises.
`clientError` is a raised `aiohttp.ClientError`; `unexpectedError` any other
raised `Exception`.  Every raising point inside the per-attempt `try` block is
thereby covered by a constructor, so the translated pipeline is total over all
upstream behaviours. -/
inductive AttemptOutcome where
  | ok (status : ℕ) (retryAfter : Option ℤ) (text : String)
      (jsonBody : Option ApiResult.JsonBody)
  | clientError (msg : String)
  | unexpectedError (msg : String)
deriving Repr, DecidableEq

/-- Observable outcome of `_request`: the returned `Result`, the sequence of
`asyncio.sleep` durations (seconds), and the number of `session.request`
invocations. -/
structure RequestRun where
  result : ApiResult.Result
  sleeps : List ℚ
  calls : ℕ
deriving Repr, DecidableEq

/-- The retry loop of `TopstepXClientV2._request`
(`for attempt in range(max_retries): ...`), written with structural fuel:
`remaining` counts loop iterations left (`maxRetries - attempt` at entry).
The upstream session is a stream `session : ℕ → AttemptOutcome` indexed by
loop iteration. -/
def requestFrom (maxRetries : ℕ) (session : ℕ → AttemptOutcome) :
    (attempt : ℕ) → (remaining : ℕ) → RequestRun
  | _, 0 =>
    ⟨.error ("Max retries (" ++ toString maxRetries ++ ") exceeded") 503
        none none, [], 0⟩
  | attempt, remaining + 1 =>
    match session attempt with
    | .ok status retryAfter text jsonBody =>
      if status = 429 then
        have retry_after : ℤ := retryAfter.getD 60
        have rest := requestFrom maxRetries session (attempt + 1) remaining
        ⟨rest.result, (retry_after : ℚ) :: rest.sleeps, rest.calls + 1⟩
      else if 500 ≤ status then
        if attempt < maxRetries - 1 then
          have wait_time : ℕ := 2 ^ attempt
          have rest := requestFrom maxRetries session (attempt + 1) remaining
          ⟨rest.result, (wait_time : ℚ) :: rest.sleeps, rest.calls + 1⟩
        else
          ⟨ApiResult.upstreamError
              ("ProjectX API error " ++ toString status ++ ": " ++ text.take 200)
              502, [], 1⟩
      else if 400 ≤ status then
        match jsonBody with
        | some j =>
          ⟨.error (ApiResult.pyOrStr j.errorMessage
                (ApiResult.pyOrStr j.message (text.take 200)))
              status j.errorCode (some j), [], 1⟩
        | none =>
          ⟨.error ("HTTP " ++ toString status ++ ": " ++ text.take 200)
              status none none, [], 1⟩
      else
        match jsonBody with
        | some j => ⟨.success j status, [], 1⟩
        | none =>
          ⟨.error "Invalid JSON response from ProjectX API" 502 none none,
            [], 1⟩
    | .clientError e =>
      if attempt < maxRetries - 1 then
        have wait_time : ℕ := 2 ^ attempt
        have rest := requestFrom maxRetries session (attempt + 1) remaining
        ⟨rest.result, (wait_time : ℚ) :: rest.sleeps, rest.calls + 1⟩
      else
        ⟨ApiResult.upstreamError
            ("API request failed after " ++ toString maxRetries ++
              " attempts: " ++ e.take 200) 503, [], 1⟩
    | .unexpectedError e =>
      if attempt < maxRetries - 1 then
        have wait_time : ℕ := 2 ^ attempt
        have rest := requestFrom maxRetries session (attempt + 1) remaining
        ⟨rest.result, (wait_time : ℚ) :: rest.sleeps, rest.calls + 1⟩
      else
        ⟨.error ("Unexpected error: " ++ e.take 200) 500 none none, [], 1⟩

/-- Outcome of `auth_manager.get_headers()` as observed by `_request`:
either headers are produced or the call raises. -/
inductive AuthHeadersOutcome where
  | ok
  | raises (msg : String)
deriving Repr, DecidableEq

/-- `TopstepXClientV2._request`: the pre-loop session/auth checks followed by
the retry loop.  (The rate-limiter acquisition before the loop only suspends;
it produces no observable result here.) -/
def request (initialized : Bool) (auth : AuthHeadersOutcome) (maxRetries : ℕ)
    (session : ℕ → AttemptOutcome) : RequestRun :=
  if ¬ initialized then
    ⟨.error "Client not initialized" 503 none none, [], 0⟩
  else
    match auth with
    | .raises m =>
      ⟨ApiResult.authError ("Authentication failed: " ++ m.take 200), [], 0⟩
    | .ok => requestFrom maxRetries session 0 maxRetries

/-- A scripted upstream: the listed outcomes in order, then transport errors
forever (the theorems never read past the list). -/
def scripted (outcomes : List AttemptOutcome) (i : ℕ) : AttemptOutcome :=
  outcomes.getD i (.clientError "off-script")

/-- Shorthand for a plain-status attempt with parseable empty JSON body. -/
def okJson (status : ℕ) : AttemptOutcome :=
  .ok status none "" (some ⟨none, none, none, "body"⟩)

/-- Shorthand for a plain-status attempt whose body is not valid JSON. -/
def okRaw (status : ℕ) (text : String) : AttemptOutcome :=
  .ok status none text none

end TopstepXClientV2
namespace AuthManager

/-- The token cache of `AuthManager.__init__` (the `refresh_token` field is
never consulted by `get_token`).  Times are minutes since an arbitrary
epoch. -/
structure AuthState where
  access_token : Option String
  token_expires_at : Option ℚ
deriving Repr, DecidableEq

/-- The settings fields `get_token` consults. -/
structure AuthSettings where
  auth_mode_login_app : Bool
  validate_tokens : Bool
deriving Repr, DecidableEq

/-- What the network does for the single login flow a refresh performs:
either a bearer token is returned or the flow raises (HTTP failure,
unparseable body, or an unsuccessful envelope). -/
inductive LoginOutcome where
  | ok (token : String)
  | fail (msg : String)
deriving Repr, DecidableEq

/-- Observable outcome of `get_token`: the returned token or the raised
`RuntimeError` message, the post-state of the cache, the number of network
login flows performed, and which flow was used (`some true` = `loginApp`). -/
structure GetTokenRun where
  result : Except String String
  state : AuthState
  logins : ℕ
  usedAppFlow : Option Bool
deriving Repr

/-- `timedelta(minutes=5)`, in minutes. -/
def tokenBuffer : ℚ := 5

/-- `timedelta(hours=24)`, in minutes. -/
def tokenLifetime : ℚ := 1440

/-- Python truthiness of `self.access_token`. -/
def truthyToken : Option String → Bool
  | none => false
  | some s => decide (s ≠ "")

/-- The cache-validity test of `get_token`:
`self.access_token and self.token_expires_at and now < expires_at - 5min`. -/
def cacheValid (st : AuthState) (now : ℚ) : Bool :=
  truthyToken st.access_token &&
  (match st.token_expires_at with
   | none => false
   | some e => decide (now < e - tokenBuffer))

/-- The raised message of a failed refresh. -/
def authFailureMsg : String :=
  "Unable to authenticate with TopstepX ProjectX gateway. " ++
    "Check credentials and network connectivity."

/-- `AuthManager.get_token` (the body runs under `self._lock`, so one call is
modelled at a time; `login` and `validateOk` describe what the network does
for the at-most-one login flow of this call). -/
def getToken (cfg : AuthSettings) (st : AuthState) (now : ℚ)
    (force_refresh : Bool) (login : LoginOutcome) (validateOk : Bool) :
    GetTokenRun :=
  if force_refresh = false ∧ cacheValid st now = true then
    ⟨.ok (st.access_token.getD ""), st, 0, none⟩
  else
    match login with
    | .fail _ => ⟨.error authFailureMsg, st, 1, some cfg.auth_mode_login_app⟩
    | .ok token =>
      if cfg.validate_tokens = true ∧ validateOk = false then
        ⟨.error authFailureMsg, st, 1, some cfg.auth_mode_login_app⟩
      else
        ⟨.ok token,
          ⟨some token, some (now + tokenLifetime)⟩, 1,
          some cfg.auth_mode_login_app⟩

end AuthManager

namespace WebSocketHandler

/-- The Python values appearing in realtime event payloads. -/
inductive PyVal where
  | none
  | int (n : ℤ)
  | float (q : ℚ)
  | str (s : String)
  | bool (b : Bool)
deriving Repr, DecidableEq

/-- A payload dict: association list, first binding wins. -/
abbrev Payload := List (String × PyVal)

/-- `payload.get(k)`: `None` when the key is absent. -/
def Payload.get (p : Payload) (k : String) : PyVal :=
  match List.find? (fun kv => kv.1 = k) p with
  | some kv => kv.2
  | Option.none => .none

/-- `normalized[k] = v` / one key of `normalized.update({...})`. -/
def Payload.set (p : Payload) (k : String) (v : PyVal) : Payload :=
  if (List.find? (fun kv => kv.1 = k) p).isSome then
    List.map (fun kv => if kv.1 = k then (k, v) else kv) p
  else p ++ [(k, v)]

/-- Python truthiness of a payload value. -/
def truthy : PyVal → Bool
  | .none => false
  | .int n => decide (n ≠ 0)
  | .float q => decide (q ≠ 0)
  | .str s => decide (s ≠ "")
  | .bool b => b

/-- Python `a or b` (returns `a` when truthy, else `b`). -/
def pyOr (a b : PyVal) : PyVal :=
  if truthy a then a else b

/-- `isinstance(v, (int, float))` (`bool` is a subclass of `int`). -/
def isNum : PyVal → Bool
  | .int _ => true
  | .float _ => true
  | .bool _ => true
  | _ => false

/-- Uppercase a string, character by character (Python `str.upper` for the
ASCII symbols at hand). -/
def strUpper (s : String) : String :=
  ⟨s.data.map Char.toUpper⟩

/-- The numeric value of an ASCII digit character. -/
def digitVal (c : Char) : Option ℕ :=
  if 48 ≤ c.toNat ∧ c.toNat ≤ 57 then some (c.toNat - 48) else Option.none

/-- Accumulate a decimal numeral. -/
def parseNatAux : List Char → ℕ → Option ℕ
  | [], acc => some acc
  | c :: cs, acc =>
    match digitVal c with
    | some d => parseNatAux cs (acc * 10 + d)
    | Option.none => Option.none

/-- Parse a non-empty all-digit string. -/
def parseNatChars (cs : List Char) : Option ℕ :=
  match cs with
  | [] => Option.none
  | _ => parseNatAux cs 0

/-- Split a string at the dots, Python `s.split(".")`. -/
def splitOnDotAux : List Char → List Char → List (List Char)
  | [], acc => [acc.reverse]
  | c :: cs, acc =>
    if c = Char.ofNat 46 then acc.reverse :: splitOnDotAux cs []
    else splitOnDotAux cs (c :: acc)

/-- Split a string at the dots, Python `s.split(".")`. -/
def splitOnDot (s : String) : List String :=
  (splitOnDotAux s.data []).map (fun cs => ⟨cs⟩)

/-- Python `int(s)` on a string: optional sign plus decimal digits
(whitespace and underscores are out of scope for the payloads at hand). -/
def parseIntStr (s : String) : Option ℤ :=
  match s.data with
  | [] => Option.none
  | c :: cs =>
    if c = Char.ofNat 45 then (parseNatChars cs).map (fun n => -(n : ℤ))
    else (parseNatChars s.data).map (fun n => (n : ℤ))

/-- Unsigned decimal-string parsing, as accepted by Python `float`
(exponents, infinities and surrounding whitespace are out of scope for the
payloads considered). -/
def parseDecPos (s : String) : Option ℚ :=
  match splitOnDot s with
  | [a] => (parseNatChars a.data).map (fun n => (n : ℚ))
  | [a, b] =>
    match parseNatChars a.data, parseNatChars b.data with
    | some na, some nb =>
      some ((na : ℚ) + (nb : ℚ) / ((10 : ℚ) ^ b.data.length))
    | _, _ => Option.none
  | _ => Option.none

/-- Decimal-string parsing with optional sign. -/
def parseDec (s : String) : Option ℚ :=
  match s.data with
  | c :: cs =>
    if c = Char.ofNat 45 then (parseDecPos ⟨cs⟩).map Neg.neg
    else parseDecPos s
  | [] => Option.none

/-- Python `float(v)`: raises `TypeError`/`ValueError` on `None` and
non-numeric strings. -/
def pyFloat : PyVal → Except String ℚ
  | .int n => .ok (n : ℚ)
  | .float q => .ok q
  | .bool b => .ok (if b then 1 else 0)
  | .str s =>
    match parseDec s with
    | some q => .ok q
    | Option.none => .error ("could not convert string to float: " ++ s)
  | .none => .error "float() argument must be a string or a real number"

/-- Python `int(v)`: raises on `None` and non-integer strings; truncates
floats toward zero. -/
def pyInt : PyVal → Except String ℤ
  | .int n => .ok n
  | .float q => .ok (pyTrunc q)
  | .bool b => .ok (if b then 1 else 0)
  | .str s =>
    match parseIntStr s with
    | some n => .ok n
    | Option.none => .error ("invalid literal for int() with base 10: " ++ s)
  | .none => .error "int() argument must be a string or a real number"

/-- The cached latest quote per symbol (`self._latest_quotes`). -/
abbrev Quotes := List (String × ℚ)

/-- `self._latest_quotes.get(symbol)`. -/
def Quotes.get (qs : Quotes) (k : String) : Option ℚ :=
  (List.find? (fun kv => kv.1 = k) qs).map (fun kv => kv.2)

/-- `self._latest_quotes[symbol] = price`. -/
def Quotes.set (qs : Quotes) (k : String) (v : ℚ) : Quotes :=
  if (List.find? (fun kv => kv.1 = k) qs).isSome then
    List.map (fun kv => if kv.1 = k then (k, v) else kv) qs
  else qs ++ [(k, v)]

/-- `WebSocketHandler._extract_symbol`. -/
def extractSymbol (payload : Payload) : Option String :=
  have symbol0 := pyOr (Payload.get payload "symbol") (Payload.get payload "symbolId")
  have symbol :=
    if truthy symbol0 = false then
      have contract_id := pyOr (Payload.get payload "contractId") (Payload.get payload "id")
      match contract_id with
      | .str s =>
        if s.data.contains (Char.ofNat 46) then
          have parts := splitOnDot s
          if 4 ≤ parts.length then .str (parts.getD 3 "") else symbol0
        else symbol0
      | _ => symbol0
    else symbol0
  match symbol with
  | .str s => some (strUpper s)
  | _ => Option.none

/-- `WebSocketHandler._normalize_quote_payload` (never raises: every
conversion is guarded by `isinstance`).  Returns the normalized payload and
the updated quote cache. -/
def normalizeQuote (quotes : Quotes) (payload : Payload) : Payload × Quotes :=
  have symbol := extractSymbol payload
  have price := pyOr (Payload.get payload "price") (pyOr (Payload.get payload "lastPrice")
    (pyOr (Payload.get payload "close") (pyOr (Payload.get payload "bidPrice")
      (Payload.get payload "askPrice"))))
  have quotes1 :=
    match symbol, price with
    | some sym, .int n => if sym ≠ "" then Quotes.set quotes sym (n : ℚ) else quotes
    | some sym, .float q => if sym ≠ "" then Quotes.set quotes sym q else quotes
    | some sym, .bool b =>
      if sym ≠ "" then Quotes.set quotes sym (if b then 1 else 0) else quotes
    | _, _ => quotes
  have symVal : PyVal := match symbol with
    | some s => .str s
    | Option.none => .none
  have priceVal : PyVal :=
    if isNum price then
      match pyFloat price with
      | .ok q => .float q
      | .error _ => price
    else price
  have n0 := Payload.set payload "symbol" symVal
  have n1 := Payload.set n0 "price" priceVal
  have n2 := Payload.set n1 "bid"
    (pyOr (Payload.get payload "bidPrice") (Payload.get payload "bid"))
  have n3 := Payload.set n2 "ask"
    (pyOr (Payload.get payload "askPrice") (Payload.get payload "ask"))
  have n4 := Payload.set n3 "lastPrice" (pyOr (Payload.get payload "lastPrice") price)
  (n4, quotes1)

/-- `WebSocketHandler._normalize_position_payload`; raises (the `Except`
error) exactly where the Python raises (`int`/`float` conversions of
malformed fields). -/
def normalizePosition (quotes : Quotes) (payload : Payload) :
    Except String Payload := do
  have symbol := extractSymbol payload
  have side_code := pyOr (Payload.get payload "type") (pyOr (Payload.get payload "side") (.int 1))
  let side_num ← pyInt side_code
  have side : String := if side_num = 1 then "LONG" else "SHORT"
  let quantity ← pyFloat (pyOr (Payload.get payload "size")
    (pyOr (Payload.get payload "quantity") (.int 0)))
  let entry_price ← pyFloat (pyOr (Payload.get payload "averagePrice")
    (pyOr (Payload.get payload "entryPrice") (pyOr (Payload.get payload "price") (.float 0))))
  have cachedQuote : PyVal :=
    match symbol with
    | some sym =>
      if sym ≠ "" then
        match Quotes.get quotes sym with
        | some q => .float q
        | Option.none => .none
      else .float entry_price
    | Option.none => .float entry_price
  let current_price ← pyFloat (pyOr (Payload.get payload "marketPrice")
    (pyOr (Payload.get payload "markPrice") (pyOr (Payload.get payload "lastPrice")
      (pyOr cachedQuote (.float entry_price)))))
  have entry_value := entry_price * pyAbs quantity
  have direction : ℚ := if side = "LONG" then 1 else -1
  have unrealized := pyOr (Payload.get payload "floatingProfitLoss")
    (pyOr (Payload.get payload "profitAndLoss") (Payload.get payload "unrealizedPnL"))
  have unrealized_value : ℚ :=
    if isNum unrealized then
      match pyFloat unrealized with
      | .ok q => q
      | .error _ => 0
    else (current_price - entry_price) * pyAbs quantity * direction
  have pnl_percent : ℚ :=
    if entry_value ≠ 0 then unrealized_value / entry_value * 100 else 0
  have symVal : PyVal := match symbol with
    | some s => .str s
    | Option.none => .none
  have n0 := Payload.set payload "position_id"
    (pyOr (Payload.get payload "id") (Payload.get payload "positionId"))
  have n1 := Payload.set n0 "symbol" symVal
  have n2 := Payload.set n1 "side" (.str side)
  have n3 := Payload.set n2 "quantity" (.float quantity)
  have n4 := Payload.set n3 "entry_price" (.float entry_price)
  have n5 := Payload.set n4 "current_price" (.float current_price)
  have n6 := Payload.set n5 "entry_value" (.float entry_value)
  have n7 := Payload.set n6 "current_value" (.float (current_price * pyAbs quantity))
  have n8 := Payload.set n7 "unrealized_pnl" (.float unrealized_value)
  have n9 := Payload.set n8 "pnl_percent" (.float pnl_percent)
  have n10 := Payload.set n9 "account_id"
    (pyOr (Payload.get payload "accountId") (Payload.get payload "account_id"))
  have n11 := Payload.set n10 "entry_time"
    (pyOr (Payload.get payload "creationTimestamp")
      (pyOr (Payload.get payload "openTimestamp") (Payload.get payload "timestamp")))
  have realized := pyOr (Payload.get payload "realizedProfitLoss")
    (Payload.get payload "realizedPnL")
  have n12 :=
    if isNum realized then
      match pyFloat realized with
      | .ok q => Payload.set n11 "realized_pnl" (.float q)
      | .error _ => n11
    else n11
  pure n12

/-- `WebSocketHandler._prepare_event_payload`: the whole normalization is in
a `try`; on an exception the handler logs and returns the raw payload. -/
def prepareEventPayload (quotes : Quotes) (event_type : String)
    (payload : Payload) : Payload × Quotes :=
  if event_type = "quote_update" then normalizeQuote quotes payload
  else if event_type = "position_update" then
    match normalizePosition quotes payload with
    | .ok n => (n, quotes)
    | .error _ => (payload, quotes)
  else (payload, quotes)

/-- `WebSocketHandler._emit_event` for one event type: every registered
callback is invoked with the prepared payload; a callback that raises is
caught and logged, never interrupting delivery.  Returns the argument passed
to each callback, in registration order, plus the updated quote cache. -/
def emitEvent (quotes : Quotes) (callbacks : List (Payload → Except String Unit))
    (event_type : String) (payload : Payload) : List Payload × Quotes :=
  have prep := prepareEventPayload quotes event_type payload
  (List.map (fun _ => prep.1) callbacks, prep.2)

end WebSocketHandler

section RiskTheorems

open RiskManager

/-- C5: for entry 4000, stop 3990, symbol MES (tick value 5), balance 50000
(account size 50000, zero realized and unrealized P&L, zero daily loss),
risk-per-trade 1.5% and configured maximum position size 5,
`calculate_position_size` returns exactly 5: risk dollars 750, risk per
contract 50, raw floor 15 contracts, clamped by the scaling plan and the
configured maximum to 5, and the 80%-of-remaining-daily-loss-budget clamp
(budget 800 ≥ 250) leaves 5 unchanged. -/
theorem C5_calculate_position_size_concrete :
    (defaultSettings.account_size + 0 + 0) *
        (defaultSettings.risk_per_trade_percent / 100) = 750 ∧
    pyAbs ((4000 : ℚ) - 3990) * getTickValue "MES" = 50 ∧
    pyTrunc (750 / 50) = 15 ∧
    getMaxContractsForBalance 50000 = 5 ∧
    defaultSettings.max_position_size = 5 ∧
    (defaultSettings.daily_loss_limit - pyAbs 0) * (8 / 10) = 800 ∧
    calculatePositionSize defaultSettings (initialState defaultSettings) 0
      ⟨4000, 3990, "MES"⟩ = 5 := by
  refine ⟨by norm_num [defaultSettings], by norm_num [pyAbs, getTickValue],
    by norm_num [pyTrunc, Int.tdiv], by norm_num [getMaxContractsForBalance],
    rfl, by norm_num [defaultSettings, pyAbs], ?_⟩
  norm_num [calculatePositionSize, defaultSettings, initialState, getTickValue,
    getMaxContractsForBalance, pyAbs, pyTrunc, Int.tdiv]

/-- C10: whenever the absolute value of `daily_pnl` is at least 95% of the
daily loss limit and the clock is inside trading hours, `can_trade` returns
false and the post-state is halted — and the returned authorization is
invariant under negating `daily_pnl`, so a daily profit of that size halts
exactly as an equal-sized loss does. -/
theorem C10_abs_daily_pnl_halts (cfg : Settings) (s : RiskState)
    (now : ClockTime) (hhours : isTradingHours now = true)
    (habs : cfg.daily_loss_limit * (95 / 100) ≤ pyAbs s.daily_pnl) :
    (canTrade cfg s now).allowed = false ∧
    (canTrade cfg s now).state.trading_halted = true ∧
    (canTrade cfg { s with daily_pnl := -s.daily_pnl } now).allowed =
      (canTrade cfg s now).allowed := by
  have habs' : pyAbs (-s.daily_pnl) = pyAbs s.daily_pnl := by
    unfold pyAbs
    split_ifs with h1 h2 h2 <;> linarith [neg_neg s.daily_pnl]
  by_cases hh : s.trading_halted
  · refine ⟨by simp [canTrade, hh], by simp [canTrade, hh], ?_⟩
    simp [canTrade, hh]
  · refine ⟨?_, ?_, ?_⟩
    · simp [canTrade, hh, hhours, habs]
    · simp [canTrade, hh, hhours, habs, haltTrading]
    · simp [canTrade, hh, hhours, habs, habs', habs' ▸ habs]

/-- C10 witness: a daily *profit* of 950 against the default 1000 daily loss
limit halts trading at 9:00 AM. -/
theorem C10_abs_daily_pnl_halts_witness :
    (canTrade defaultSettings profitState ⟨9, 0⟩).allowed = false ∧
    (canTrade defaultSettings profitState ⟨9, 0⟩).state.trading_halted = true := by
  have h := C10_abs_daily_pnl_halts defaultSettings profitState
    ⟨9, 0⟩ (by simp [isTradingHours])
    (by norm_num [defaultSettings, initialState, profitState, pyAbs])
  exact ⟨h.1, h.2.1⟩

/-- C1 counterexample: with daily loss limit 1000, drawdown limit 4000,
account size 40000, a state with a daily *profit* of 950 (so the daily
realized loss is 0, below 95% of the daily loss limit), balance 40950 above
the buffered trailing-drawdown ceiling 37800, no halt latched, no consecutive
losses, at 9:00 AM (inside trading hours, outside the pre-close blackout):
every hypothesis of the claim holds, yet `can_trade` returns false (the code
compares `abs(daily_pnl)`, so the profit trips the daily-loss check). -/
theorem C1_counterexample :
    (RiskState.trading_halted ⟨40000, 950, 950, 950, 0, false, "", none, 40000⟩
        = false) ∧
    isTradingHours ⟨9, 0⟩ = true ∧
    isNearMarketClose ⟨9, 0⟩ = false ∧
    (if (950 : ℚ) < 0 then -(950 : ℚ) else 0) < 1000 * (95 / 100) ∧
    ((40000 : ℚ) - 4000) * (105 / 100) < 40000 + 950 ∧
    (0 : ℕ) < 3 ∧
    (canTrade ⟨40000, 1000, 4000, 1 / 2, 3 / 2, 5, 1⟩
        ⟨40000, 950, 950, 950, 0, false, "", none, 40000⟩ ⟨9, 0⟩).allowed
      = false := by
  refine ⟨rfl, by simp [isTradingHours], by simp [isNearMarketClose],
    by norm_num, by norm_num, by norm_num, ?_⟩
  norm_num [canTrade, isTradingHours, pyAbs]

/-- C1 amended: for every `AccountRiskState` in which trading is not halted,
the clock is inside the trading-hours window and outside the pre-close
blackout, the *absolute value* of the daily realized P&L is below 95% of the
daily loss limit, the balance is strictly above the 5%-buffered
trailing-drawdown ceiling, and there are fewer than 3 consecutive losses,
`can_trade` returns true. -/
theorem C1_active_state_authorizes (cfg : Settings) (s : RiskState)
    (now : ClockTime)
    (hhalt : s.trading_halted = false)
    (hhours : isTradingHours now = true)
    (hclose : isNearMarketClose now = false)
    (hdll : pyAbs s.daily_pnl < cfg.daily_loss_limit * (95 / 100))
    (hdd : (s.high_water_mark - cfg.max_drawdown_limit) * (105 / 100) <
      cfg.account_size + s.total_pnl)
    (hcl : s.consecutive_losses < 3) :
    (canTrade cfg s now).allowed = true := by
  simp [canTrade, hhalt, hhours, not_le.mpr hdll, not_le.mpr hdd,
    Nat.not_le.mpr hcl]

/-- C1 amended witness: a loss day of 900 against limit 1000, balance 39100
above the buffered ceiling 37800, 2 consecutive losses, at 9:00 AM. -/
theorem C1_active_state_authorizes_witness :
    (canTrade ⟨40000, 1000, 4000, 1 / 2, 3 / 2, 5, 1⟩
        ⟨40000, -900, -900, 0, 2, false, "", none, 40000⟩ ⟨9, 0⟩).allowed
      = true :=
  C1_active_state_authorizes ⟨40000, 1000, 4000, 1 / 2, 3 / 2, 5, 1⟩
    ⟨40000, -900, -900, 0, 2, false, "", none, 40000⟩ ⟨9, 0⟩
    rfl (by simp [isTradingHours]) (by simp [isNearMarketClose])
    (by norm_num [pyAbs]) (by norm_num) (by norm_num)

/-- `update_pnl` never touches the halt latch. -/
theorem updatePnl_trading_halted (cfg : Settings) (s : RiskState) (d : ℚ) :
    (updatePnl cfg s d).trading_halted = s.trading_halted := by
  simp [updatePnl]

/-- A whole sequence of `update_pnl` calls never touches the halt latch. -/
theorem foldl_updatePnl_trading_halted (cfg : Settings) :
    ∀ (ds : List ℚ) (s : RiskState),
      (ds.foldl (updatePnl cfg) s).trading_halted = s.trading_halted := by
  intro ds
  induction ds with
  | nil => intro s; rfl
  | cons d ds ih =>
    intro s
    simpa [List.foldl_cons, updatePnl_trading_halted] using
      ih (updatePnl cfg s d)

/-- C4: once `trading_halted` is true, `can_trade` returns false with the
state unchanged, and stays false through any further sequence of
`update_pnl` calls (profitable or not); the halt is cleared only by the
daily rollover: `reset_daily_tracking` on a new calendar date clears the
halt, `daily_pnl`, `consecutive_losses` and the halt reason while leaving
`total_pnl` and `high_water_mark` unchanged, and on the same calendar date
it changes nothing. -/
theorem C4_halt_latched_until_rollover (cfg : Settings) (s : RiskState)
    (now : ClockTime) (today : ℕ) (ds : List ℚ) :
    (s.trading_halted = true →
      (canTrade cfg s now).allowed = false ∧
      (canTrade cfg s now).state = s ∧
      (ds.foldl (updatePnl cfg) s).trading_halted = true ∧
      (canTrade cfg (ds.foldl (updatePnl cfg) s) now).allowed = false) ∧
    ((ds.foldl (updatePnl cfg) s).trading_halted = s.trading_halted) ∧
    (s.current_date ≠ some today →
      (resetDailyTracking cfg s today).trading_halted = false ∧
      (resetDailyTracking cfg s today).daily_pnl = 0 ∧
      (resetDailyTracking cfg s today).consecutive_losses = 0 ∧
      (resetDailyTracking cfg s today).trading_halted_reason = "" ∧
      (resetDailyTracking cfg s today).current_date = some today ∧
      (resetDailyTracking cfg s today).total_pnl = s.total_pnl ∧
      (resetDailyTracking cfg s today).high_water_mark = s.high_water_mark) ∧
    (s.current_date = some today → resetDailyTracking cfg s today = s) := by
  refine ⟨?_, foldl_updatePnl_trading_halted cfg ds s, ?_, ?_⟩
  · intro hh
    have hf : (ds.foldl (updatePnl cfg) s).trading_halted = true :=
      (foldl_updatePnl_trading_halted cfg ds s).trans hh
    exact ⟨by simp [canTrade, hh], by simp [canTrade, hh],
      hf, by simp [canTrade, hf]⟩
  · intro hd
    simp [resetDailyTracking, hd]
  · intro hd
    simp [resetDailyTracking, hd]

/-- C4 witness at a halted state (halted after a 950 daily loss, date day 5):
two further profitable trades keep trading blocked; the rollover to day 6
clears the halt and daily counters but preserves `total_pnl` and the
high-water mark; rerunning the rollover on day 5 itself changes nothing. -/
theorem C4_halt_latched_until_rollover_witness :
    (canTrade defaultSettings
        ⟨50000, -950, -950, 0, 1, true, "Approaching daily loss limit",
          some 5, 50000⟩ ⟨9, 0⟩).allowed = false ∧
    (([100, 200] : List ℚ).foldl (updatePnl defaultSettings)
        ⟨50000, -950, -950, 0, 1, true, "Approaching daily loss limit",
          some 5, 50000⟩).trading_halted = true ∧
    (canTrade defaultSettings
        (([100, 200] : List ℚ).foldl (updatePnl defaultSettings)
          ⟨50000, -950, -950, 0, 1, true, "Approaching daily loss limit",
            some 5, 50000⟩) ⟨9, 0⟩).allowed = false ∧
    (resetDailyTracking defaultSettings
        ⟨50000, -950, -950, 0, 1, true, "Approaching daily loss limit",
          some 5, 50000⟩ 6).trading_halted = false ∧
    (resetDailyTracking defaultSettings
        ⟨50000, -950, -950, 0, 1, true, "Approaching daily loss limit",
          some 5, 50000⟩ 6).total_pnl = -950 ∧
    resetDailyTracking defaultSettings
        ⟨50000, -950, -950, 0, 1, true, "Approaching daily loss limit",
          some 5, 50000⟩ 5 =
      ⟨50000, -950, -950, 0, 1, true, "Approaching daily loss limit",
        some 5, 50000⟩ := by
  have h := C4_halt_latched_until_rollover defaultSettings
    ⟨50000, -950, -950, 0, 1, true, "Approaching daily loss limit",
      some 5, 50000⟩ ⟨9, 0⟩ 6 [100, 200]
  have h5 := C4_halt_latched_until_rollover defaultSettings
    ⟨50000, -950, -950, 0, 1, true, "Approaching daily loss limit",
      some 5, 50000⟩ ⟨9, 0⟩ 5 [100, 200]
  obtain ⟨h1, _, h3, _⟩ := h
  obtain ⟨ha, _, hc, hd⟩ := h1 rfl
  obtain ⟨r1, _, _, _, _, r6, _⟩ := h3 (by simp)
  exact ⟨ha, hc, hd, r1, r6, h5.2.2.2 rfl⟩

end RiskTheorems

section ClientTheorems

open TopstepXClientV2

/-- One non-final loop iteration on a 500 answer: sleep `2 ^ attempt` and
recurse. -/
theorem requestFrom_step_500 (m : ℕ) (session : ℕ → AttemptOutcome)
    (a rem : ℕ) (h : session a = okJson 500) (hlt : a < m - 1) :
    requestFrom m session a (rem + 1) =
      ⟨(requestFrom m session (a + 1) rem).result,
        ((2 ^ a : ℕ) : ℚ) :: (requestFrom m session (a + 1) rem).sleeps,
        (requestFrom m session (a + 1) rem).calls + 1⟩ := by
  simp [requestFrom, h, okJson, hlt]

/-- The final loop iteration on a 500 answer: the 502 upstream Failure. -/
theorem requestFrom_final_500 (m : ℕ) (session : ℕ → AttemptOutcome)
    (a rem : ℕ) (h : session a = okJson 500) (hlt : ¬ a < m - 1) :
    requestFrom m session a (rem + 1) =
      ⟨ApiResult.upstreamError ("ProjectX API error 500: ") 502, [], 1⟩ := by
  have hmsg : "ProjectX API error " ++ toString 500 ++ ": " ++ "".take 200 =
      "ProjectX API error 500: " := by rfl
  simp [requestFrom, h, okJson, hlt, hmsg, ApiResult.upstreamError]

/-- With every attempt answering 500, the retry loop consumes all remaining
iterations and ends in the 502 upstream Failure. -/
theorem requestFrom_all_500 (m : ℕ) :
    ∀ (r a : ℕ), a + r + 1 = m →
      (requestFrom m (fun _ => okJson 500) a (r + 1)).result =
        ApiResult.upstreamError ("ProjectX API error 500: ") 502 ∧
      (requestFrom m (fun _ => okJson 500) a (r + 1)).calls = r + 1 := by
  intro r
  induction r with
  | zero =>
    intro a ha
    rw [requestFrom_final_500 m _ a 0 rfl (by omega)]
    exact ⟨rfl, rfl⟩
  | succ r ih =>
    intro a ha
    have hrec := ih (a + 1) (by omega)
    rw [requestFrom_step_500 m _ a (r + 1) rfl (by omega)]
    exact ⟨hrec.1, by simp [hrec.2]⟩

/-- C7: the scripted statuses [500, 500, 200] with `max_retries = 3` yield
the 200 Success after exactly 3 attempts and exponential backoff sleeps of
2^0 = 1 and 2^1 = 2 seconds; and when every attempt answers 500, `_request`
performs exactly `max_retries` attempts and returns the 502 Failure. -/
theorem C7_backoff_retry_then_success :
    (request true .ok 3
        (scripted [okJson 500, okJson 500, okJson 200])).result =
      ApiResult.Result.success ⟨none, none, none, "body"⟩ 200 ∧
    (request true .ok 3
        (scripted [okJson 500, okJson 500, okJson 200])).sleeps = [1, 2] ∧
    (request true .ok 3
        (scripted [okJson 500, okJson 500, okJson 200])).calls = 3 ∧
    (∀ m : ℕ, 1 ≤ m →
      (request true .ok m (fun _ => okJson 500)).result =
        ApiResult.upstreamError ("ProjectX API error 500: ") 502 ∧
      (request true .ok m (fun _ => okJson 500)).calls = m) := by
  refine ⟨?_, ?_, ?_, ?_⟩
  · simp [request, requestFrom, scripted, okJson]
  · simp [request, requestFrom, scripted, okJson]
  · simp [request, requestFrom, scripted, okJson]
  · intro m hm
    obtain ⟨r, rfl⟩ : ∃ r, m = r + 1 := ⟨m - 1, by omega⟩
    have h := requestFrom_all_500 (r + 1) r 0 (by omega)
    exact ⟨by simpa [request] using h.1, by simpa [request] using h.2⟩

/-- C7 witness: the all-5xx half at `max_retries = 3`. -/
theorem C7_backoff_retry_then_success_witness :
    (request true .ok 3 (fun _ => okJson 500)).result =
      ApiResult.upstreamError ("ProjectX API error 500: ") 502 ∧
    (request true .ok 3 (fun _ => okJson 500)).calls = 3 :=
  C7_backoff_retry_then_success.2.2.2 3 (by norm_num)

/-- C3 counterexample: a 429 answer does consume the attempt budget — with
`max_retries = 1` the scripted sequence [429, 200] exhausts the loop after
sleeping the default 60 seconds and returns the 503 Failure, not the 200
Success the claim promises for every `max_retries`. -/
theorem C3_counterexample :
    (request true .ok 1
        (scripted [.ok 429 none "" none, okJson 200])).result =
      ApiResult.Result.error ("Max retries (" ++ toString 1 ++ ") exceeded")
        503 none none ∧
    (request true .ok 1
        (scripted [.ok 429 none "" none, okJson 200])).result.is_success
      = false ∧
    (request true .ok 1
        (scripted [.ok 429 none "" none, okJson 200])).sleeps = [60] := by
  refine ⟨?_, ?_, ?_⟩ <;>
    simp [request, requestFrom, scripted, ApiResult.Result.is_success]

/-- C3 amended: a 429 answer makes `_request` read `Retry-After`
(defaulting to 60 seconds), sleep that long and retry, but the retry
consumes one attempt from the budget; the scripted sequence [429, 200]
yields the 200 Success whenever `max_retries ≥ 2` (after exactly one
Retry-After sleep and two attempts). -/
theorem C3_429_waits_and_retries (m : ℕ) (hm : 2 ≤ m) (ra : Option ℤ) :
    (request true .ok m
        (scripted [.ok 429 ra "" none, okJson 200])).result =
      ApiResult.Result.success ⟨none, none, none, "body"⟩ 200 ∧
    (request true .ok m
        (scripted [.ok 429 ra "" none, okJson 200])).sleeps =
      [((ra.getD 60 : ℤ) : ℚ)] ∧
    (request true .ok m
        (scripted [.ok 429 ra "" none, okJson 200])).calls = 2 := by
  obtain ⟨r, rfl⟩ : ∃ r, m = r + 2 := ⟨m - 2, by omega⟩
  refine ⟨?_, ?_, ?_⟩ <;> simp [request, requestFrom, scripted, okJson]

/-- C3 amended witness: `max_retries = 2` with `Retry-After: 5`. -/
theorem C3_429_waits_and_retries_witness :
    (request true .ok 2
        (scripted [.ok 429 (some 5) "" none, okJson 200])).result =
      ApiResult.Result.success ⟨none, none, none, "body"⟩ 200 ∧
    (request true .ok 2
        (scripted [.ok 429 (some 5) "" none, okJson 200])).sleeps = [5] := by
  have h := C3_429_waits_and_retries 2 (by norm_num) (some 5)
  refine ⟨h.1, ?_⟩
  rw [h.2.1]
  norm_num

/-- C6: for every initialization state, auth outcome, retry budget and
upstream behaviour, `_request` returns the two-variant `Result` (never an
escaped exception: every raising point of the attempt body is a constructor
of `AttemptOutcome` and every branch of the translation ends in a
`Result`); and a 2xx (non-429, below-400) response whose body fails to
parse as JSON yields the 502 Failure, not a Success. -/
theorem C6_two_variant_result (m : ℕ) (session : ℕ → AttemptOutcome)
    (s : ℕ) (ra : Option ℤ) (text : String)
    (hs : s < 400) (h429 : s ≠ 429) (hm : 1 ≤ m)
    (hsession : session 0 = .ok s ra text none) :
    (∀ (i : Bool) (a : AuthHeadersOutcome) (k : ℕ)
        (sess : ℕ → AttemptOutcome),
      (request i a k sess).result.is_success = true ∨
        (request i a k sess).result.is_error = true) ∧
    (request true .ok m session).result =
      ApiResult.Result.error "Invalid JSON response from ProjectX API" 502
        none none ∧
    (request true .ok m session).result.is_success = false := by
  refine ⟨?_, ?_, ?_⟩
  · intro i a k sess
    cases hres : (request i a k sess).result <;>
      simp [ApiResult.Result.is_success, ApiResult.Result.is_error]
  · obtain ⟨r, rfl⟩ : ∃ r, m = r + 1 := ⟨m - 1, by omega⟩
    have h500 : ¬ (500 ≤ s) := by omega
    have h400 : ¬ (400 ≤ s) := by omega
    simp [request, requestFrom, hsession, h429, h500, h400]
  · obtain ⟨r, rfl⟩ : ∃ r, m = r + 1 := ⟨m - 1, by omega⟩
    have h500 : ¬ (500 ≤ s) := by omega
    have h400 : ¬ (400 ≤ s) := by omega
    simp [request, requestFrom, hsession, h429, h500, h400,
      ApiResult.Result.is_success]

/-- C6 witness: a 200 response with an unparseable body at
`max_retries = 3`. -/
theorem C6_two_variant_result_witness :
    (request true .ok 3 (scripted [okRaw 200 "<html>"])).result =
      ApiResult.Result.error "Invalid JSON response from ProjectX API" 502
        none none := by
  have h := C6_two_variant_result 3 (scripted [okRaw 200 "<html>"]) 200 none
    "<html>" (by norm_num) (by norm_num) (by norm_num)
    (by simp [scripted, okRaw])
  exact h.2.1

end ClientTheorems

section AuthTheorems

open AuthManager

/-- C8: `get_token(force_refresh=false)` performs no network login and
returns the cached token exactly when a token is cached (non-empty, with a
stored expiry) and `now` is earlier than that expiry minus the 5-minute
buffer; in every other case (absent/stale token or `force_refresh=true`) it
performs exactly one login flow, and on success caches the new token with
its 24-hour expiry and returns it, while on a failed login it raises the
authentication error and leaves the cache unchanged (never returning a
stale or absent token). -/
theorem C8_get_token_cache_discipline (cfg : AuthSettings) (st : AuthState)
    (now : ℚ) (force : Bool) (login : LoginOutcome) (vok : Bool) :
    ((getToken cfg st now force login vok).logins = 0 ↔
      (force = false ∧ truthyToken st.access_token = true ∧
        ∃ e, st.token_expires_at = some e ∧ now < e - tokenBuffer)) ∧
    (force = false → cacheValid st now = true →
      getToken cfg st now force login vok =
        ⟨.ok (st.access_token.getD ""), st, 0, none⟩) ∧
    (∀ tok, login = .ok tok →
      (cfg.validate_tokens = false ∨ vok = true) →
      ¬ (force = false ∧ cacheValid st now = true) →
      getToken cfg st now force login vok =
        ⟨.ok tok, ⟨some tok, some (now + tokenLifetime)⟩, 1,
          some cfg.auth_mode_login_app⟩) ∧
    (∀ msg, login = .fail msg →
      ¬ (force = false ∧ cacheValid st now = true) →
      (getToken cfg st now force login vok).result = .error authFailureMsg ∧
      (getToken cfg st now force login vok).state = st ∧
      (getToken cfg st now force login vok).logins = 1) := by
  have hvalid : cacheValid st now = true ↔
      (truthyToken st.access_token = true ∧
        ∃ e, st.token_expires_at = some e ∧ now < e - tokenBuffer) := by
    unfold cacheValid
    cases hexp : st.token_expires_at with
    | none => simp [hexp]
    | some e => simp [hexp]
  by_cases hc : force = false ∧ cacheValid st now = true
  · refine ⟨?_, ?_, ?_, ?_⟩
    · rw [show (getToken cfg st now force login vok).logins = 0 from by
        simp [getToken, hc]]
      exact ⟨fun _ => ⟨hc.1, hvalid.mp hc.2⟩, fun _ => rfl⟩
    · intro _ _
      simp [getToken, hc]
    · intro tok _ _ hcc
      exact absurd hc hcc
    · intro msg _ hcc
      exact absurd hc hcc
  · have hlog : (getToken cfg st now force login vok).logins = 1 := by
      cases login with
      | ok tok =>
        by_cases hv : cfg.validate_tokens = true ∧ vok = false <;>
          simp [getToken, hc, hv]
      | fail msg => simp [getToken, hc]
    refine ⟨?_, ?_, ?_, ?_⟩
    · rw [hlog]
      exact ⟨fun h => absurd h (by norm_num),
        fun ⟨hf, ht, e, he, hl⟩ =>
          absurd ⟨hf, hvalid.mpr ⟨ht, e, he, hl⟩⟩ hc⟩
    · intro hf hv
      exact absurd ⟨hf, hv⟩ hc
    · intro tok hl hvok _
      subst hl
      rcases hvok with hvf | hvt
      · have hv : ¬ (cfg.validate_tokens = true ∧ vok = false) := by
          simp [hvf]
        simp [getToken, hc, hv]
      · have hv : ¬ (cfg.validate_tokens = true ∧ vok = false) := by
          simp [hvt]
        simp [getToken, hc, hv]
    · intro msg hl _
      subst hl
      exact ⟨by simp [getToken, hc], by simp [getToken, hc],
        by simp [getToken, hc]⟩

/-- C8 witness: a fresh cached token (expiry 1000, now 0) is served from the
cache with no login; at now 996 (inside the 5-minute buffer) one login runs
and recaches; a failed login raises and leaves the cache untouched. -/
theorem C8_get_token_cache_discipline_witness :
    getToken ⟨false, false⟩ ⟨some "tok", some 1000⟩ 0 false (.ok "new") true =
      ⟨.ok "tok", ⟨some "tok", some 1000⟩, 0, none⟩ ∧
    getToken ⟨false, false⟩ ⟨some "tok", some 1000⟩ 996 false (.ok "new") true =
      ⟨.ok "new", ⟨some "new", some (996 + tokenLifetime)⟩, 1, some false⟩ ∧
    (getToken ⟨false, false⟩ ⟨some "tok", some 1000⟩ 996 false
        (.fail "boom") true).result = .error authFailureMsg ∧
    (getToken ⟨false, false⟩ ⟨some "tok", some 1000⟩ 996 false
        (.fail "boom") true).state = ⟨some "tok", some 1000⟩ := by
  have h0 := C8_get_token_cache_discipline ⟨false, false⟩
    ⟨some "tok", some 1000⟩ 0 false (.ok "new") true
  have h1 := C8_get_token_cache_discipline ⟨false, false⟩
    ⟨some "tok", some 1000⟩ 996 false (.ok "new") true
  have h2 := C8_get_token_cache_discipline ⟨false, false⟩
    ⟨some "tok", some 1000⟩ 996 false (.fail "boom") true
  have hstale : cacheValid (⟨some "tok", some 1000⟩ : AuthState) 996 = false := by
    have : ((996 : ℚ) < 1000 - tokenBuffer) = False := by
      norm_num [tokenBuffer]
    simp [cacheValid, truthyToken, this]
  refine ⟨?_, ?_, ?_, ?_⟩
  · have hfresh : cacheValid (⟨some "tok", some 1000⟩ : AuthState) 0 = true := by
      have : ((0 : ℚ) < 1000 - tokenBuffer) = True := by
        norm_num [tokenBuffer]
      simp [cacheValid, truthyToken, this]
    have := h0.2.1 rfl hfresh
    simpa using this
  · have := h1.2.2.1 "new" rfl (Or.inl rfl)
      (by intro h; rw [hstale] at h; exact absurd h.2 (by simp))
    simpa using this
  · exact (h2.2.2.2 "boom" rfl
      (by intro h; rw [hstale] at h; exact absurd h.2 (by simp))).1
  · exact (h2.2.2.2 "boom" rfl
      (by intro h; rw [hstale] at h; exact absurd h.2 (by simp))).2.1

end AuthTheorems

section WebSocketTheorems

open WebSocketHandler

/-- C9 counterexample: for the position-update payload
`{"type": "LONG", "size": 2}` the per-variant normalization raises
(`int("LONG")` is a `ValueError`), and `_emit_event` nevertheless delivers
the event — the raw, un-normalized payload — to the registered subscriber
callback, so a normalization failure is logged but *not* dropped. -/
theorem C9_counterexample :
    normalizePosition []
        [("type", PyVal.str "LONG"), ("size", PyVal.int 2)] =
      Except.error ("invalid literal for int() with base 10: " ++ "LONG") ∧
    emitEvent [] [fun _ => Except.ok ()] "position_update"
        [("type", PyVal.str "LONG"), ("size", PyVal.int 2)] =
      ([[("type", PyVal.str "LONG"), ("size", PyVal.int 2)]], []) := by
  constructor
  · decide
  · decide

/-- C9 amended: when the per-variant normalization of a position update
raises, `_prepare_event_payload` catches the exception, logs it, and
returns the *raw* payload, which `_emit_event` then delivers unchanged to
every registered subscriber callback (one delivery per callback, callback
exceptions caught) — the delivery loop never crashes on a malformed event,
but the event is delivered raw rather than dropped. -/
theorem C9_normalization_failure_delivers_raw (quotes : Quotes)
    (callbacks : List (Payload → Except String Unit)) (payload : Payload)
    (e : String) (hfail : normalizePosition quotes payload = .error e) :
    prepareEventPayload quotes "position_update" payload =
      (payload, quotes) ∧
    emitEvent quotes callbacks "position_update" payload =
      (List.map (fun _ => payload) callbacks, quotes) ∧
    (emitEvent quotes callbacks "position_update" payload).1.length =
      callbacks.length := by
  have hne : ("position_update" = "quote_update") = False := by
    simp
  have hprep : prepareEventPayload quotes "position_update" payload =
      (payload, quotes) := by
    simp [prepareEventPayload, hne, hfail]
  refine ⟨hprep, ?_, ?_⟩ <;> simp [emitEvent, hprep]

/-- C9 amended witness: the malformed payload above, two subscribers. -/
theorem C9_normalization_failure_delivers_raw_witness :
    emitEvent [] [fun _ => Except.ok (), fun _ => Except.error "cb boom"]
        "position_update"
        [("type", PyVal.str "LONG"), ("size", PyVal.int 2)] =
      ([[("type", PyVal.str "LONG"), ("size", PyVal.int 2)],
        [("type", PyVal.str "LONG"), ("size", PyVal.int 2)]], []) := by
  have h := C9_normalization_failure_delivers_raw []
    [fun _ => Except.ok (), fun _ => Except.error "cb boom"]
    [("type", PyVal.str "LONG"), ("size", PyVal.int 2)]
    ("invalid literal for int() with base 10: " ++ "LONG") (by decide)
  simpa using h.2.1

end WebSocketTheorems

namespace RateLimiter

/-- Spread is inherited by the tail. -/
theorem Spread.tail {N : ℕ} {W : ℚ} {a : ℚ} {A : List ℚ}
    (h : Spread N W (a :: A)) : Spread N W A := by
  intro i hi
  have hb : i + 1 + N < (a :: A).length := by
    simp only [List.length_cons]
    omega
  have h2 := h (i + 1) hb
  simp only [show i + 1 + N = i + N + 1 from by omega,
    List.getElem_cons_succ] at h2
  exact h2

/-- In a sorted list, earlier elements are at most later ones. -/
theorem sorted_getElem_le {A : List ℚ} (hs : A.Sorted (· < ·)) {i j : ℕ}
    (hij : i ≤ j) (hj : j < A.length) :
    A.get ⟨i, by omega⟩ ≤ A.get ⟨j, hj⟩ := by
  rcases Nat.lt_or_ge i j with hlt | hge
  · exact le_of_lt (List.pairwise_iff_get.mp hs ⟨i, by omega⟩ ⟨j, hj⟩ hlt)
  · have : i = j := by omega
    subst this
    exact le_refl _

/-- Every element of a sorted list is at most its last element. -/
theorem sorted_le_getLast {A : List ℚ} (hs : A.Sorted (· < ·)) {a : ℚ}
    (ha : a ∈ A) {l : ℚ} (hl : A.getLast? = some l) : a ≤ l := by
  obtain ⟨i, hi⟩ := List.mem_iff_get.mp ha
  have hne : A ≠ [] := List.ne_nil_of_mem ha
  have hpos : 0 < A.length := List.length_pos.mpr hne
  have hlast : A.getLast? = some (A.get ⟨A.length - 1, by omega⟩) := by
    rw [List.getLast?_eq_getElem?]
    exact List.getElem?_eq_getElem _
  rw [hlast] at hl
  obtain rfl := Option.some.inj hl
  rw [← hi]
  exact sorted_getElem_le hs (by omega) (by omega)

/-- After pruning a sorted queue with cutoff `c`, every survivor is at least
`c`. -/
theorem mem_pruneQueue_ge (c : ℚ) :
    ∀ (q : List ℚ), q.Sorted (· < ·) →
      ∀ a ∈ pruneQueue c q, c ≤ a := by
  intro q
  induction q with
  | nil => intro _ a ha; simp [pruneQueue] at ha
  | cons b bs ih =>
    intro hs a ha
    rw [pruneQueue, List.dropWhile_cons] at ha
    by_cases hb : b < c
    · rw [if_pos (by simpa using hb)] at ha
      exact ih (List.sorted_cons.mp hs).2 a ha
    · rw [if_neg (by simpa using hb)] at ha
      rcases List.mem_cons.mp ha with rfl | has
      · exact not_lt.mp hb
      · exact le_of_lt (lt_of_le_of_lt (not_lt.mp hb)
          ((List.sorted_cons.mp hs).1 a has))

/-- Every element pruned by the cutoff `c` was below `c`. -/
theorem mem_prunedPart_lt (c : ℚ) (q : List ℚ) :
    ∀ a ∈ q.takeWhile (fun ts => decide (ts < c)), a < c := by
  intro a ha
  simpa using List.mem_takeWhile_imp ha

/-- Appending a strictly larger element preserves strict sortedness. -/
theorem sorted_append_singleton {A : List ℚ} {t : ℚ}
    (hs : A.Sorted (· < ·)) (ht : ∀ x ∈ A, x < t) :
    (A ++ [t]).Sorted (· < ·) := by
  rw [List.Sorted, List.pairwise_append]
  exact ⟨hs, List.pairwise_singleton _ _,
    fun a ha b hb => by
      rw [List.mem_singleton.mp hb]
      exact ht a ha⟩

end RateLimiter

namespace RateLimiter

/-- `Spread` in `List.get` form. -/
theorem spread_get {N : ℕ} {W : ℚ} {A : List ℚ} (hsp : Spread N W A)
    (i : ℕ) (h : i + N < A.length) :
    A.get ⟨i, by omega⟩ + W ≤ A.get ⟨i + N, h⟩ := by
  simpa [List.get_eq_getElem] using hsp i h

/-- Build `Spread` for a one-element extension: all old pairs persist and
the only new pair is `(A[m - N], t)`. -/
theorem spread_append_one {N : ℕ} {W : ℚ} {A : List ℚ} {t : ℚ}
    (hN : 1 ≤ N) (hsp : Spread N W A)
    (hlastpair : ∀ (h : N ≤ A.length) (h2 : A.length - N < A.length),
      A[A.length - N] + W ≤ t) :
    Spread N W (A ++ [t]) := by
  intro i h
  have hlen : (A ++ [t]).length = A.length + 1 := by simp
  by_cases hi : i + N < A.length
  · rw [List.getElem_append_left (show i < A.length by omega),
      List.getElem_append_left hi]
    exact hsp i hi
  · have hiN : i + N = A.length := by
      rw [hlen] at h
      omega
    have hNle : N ≤ A.length := by omega
    have hi2 : i < A.length := by omega
    rw [List.getElem_append_left hi2,
      List.getElem_append_right (by omega : A.length ≤ i + N)]
    simp only [hiN, Nat.sub_self, List.getElem_singleton]
    have hieq : i = A.length - N := by omega
    subst hieq
    exact hlastpair hNle (by omega)

/-- A pruned queue that still holds `N + 1` entries would contradict the
spread invariant: its head is at least `t - W`, its `N`-th entry is both at
least `W` above the head and at most the last admission, which is below
`t`. -/
theorem pruned_length_le (N : ℕ) (W : ℚ) {pre q1 A : List ℚ} {t : ℚ}
    (hpre1 : pre ++ q1 = A) (hsp : Spread N W A) (hs : A.Sorted (· < ·))
    (hge : ∀ a ∈ q1, t - W ≤ a) (hlt : ∀ l, A.getLast? = some l → l < t) :
    q1.length ≤ N := by
  subst hpre1
  by_contra hgt
  push_neg at hgt
  have hb0 : 0 < q1.length := by omega
  have hbN : N < q1.length := hgt
  have hblen : pre.length + N < (pre ++ q1).length := by
    rw [List.length_append]
    omega
  have hsp0 := hsp pre.length hblen
  have e0 : (pre ++ q1)[pre.length] = q1.get ⟨0, hb0⟩ := by
    rw [List.getElem_append_right (le_refl pre.length)]
    simp [List.get_eq_getElem]
  have eN : (pre ++ q1)[pre.length + N] = q1.get ⟨N, hbN⟩ := by
    rw [List.getElem_append_right (by omega : pre.length ≤ pre.length + N)]
    simp [List.get_eq_getElem]
  rw [e0, eN] at hsp0
  obtain ⟨l, hl⟩ : ∃ l, (pre ++ q1).getLast? = some l := by
    cases hA : (pre ++ q1).getLast? with
    | some l => exact ⟨l, rfl⟩
    | none =>
      rw [List.getLast?_eq_none_iff] at hA
      obtain ⟨-, hq1nil⟩ := List.append_eq_nil.mp hA
      rw [hq1nil] at hb0
      simp at hb0
  have hmemN : q1.get ⟨N, hbN⟩ ∈ pre ++ q1 :=
    List.mem_append_right pre (List.get_mem q1 N hbN)
  have hle : q1.get ⟨N, hbN⟩ ≤ l := sorted_le_getLast hs hmemN hl
  have hge0 : t - W ≤ q1.get ⟨0, hb0⟩ := hge _ (List.get_mem q1 0 hb0)
  have : l < t := hlt l hl
  linarith

/-- Evaluation of `acquire` when the pruned queue is under capacity. -/
theorem acquire_eval_low (N : ℕ) (W : ℚ) (q : List ℚ) (t : ℚ)
    (h : (pruneQueue (t - W) q).length < N) :
    acquire N W q t = ⟨pruneQueue (t - W) q ++ [t], t⟩ := by
  simp [acquire, Nat.not_le.mpr h]

/-- Evaluation of `acquire` at capacity with a positive wait: sleep until
the oldest entry expires, re-prune, admit at the wake time. -/
theorem acquire_eval_wait (N : ℕ) (W : ℚ) (q : List ℚ) (t oldest : ℚ)
    (rest : List ℚ) (hq1 : pruneQueue (t - W) q = oldest :: rest)
    (hlen : N ≤ (pruneQueue (t - W) q).length)
    (hwait : 0 < W - (t - oldest)) :
    acquire N W q t =
      ⟨pruneQueue (t + (W - (t - oldest)) - W) (oldest :: rest) ++
          [t + (W - (t - oldest))],
        t + (W - (t - oldest))⟩ := by
  rw [acquire]
  simp only [hq1] at hlen ⊢
  rw [if_pos hlen, if_pos hwait]

/-- Evaluation of `acquire` at capacity with a non-positive wait: admit
immediately without pruning. -/
theorem acquire_eval_nowait (N : ℕ) (W : ℚ) (q : List ℚ) (t oldest : ℚ)
    (rest : List ℚ) (hq1 : pruneQueue (t - W) q = oldest :: rest)
    (hlen : N ≤ (pruneQueue (t - W) q).length)
    (hwait : ¬ 0 < W - (t - oldest)) :
    acquire N W q t = ⟨(oldest :: rest) ++ [t], t⟩ := by
  rw [acquire]
  simp only [hq1] at hlen ⊢
  rw [if_pos hlen, if_neg hwait]

end RateLimiter

namespace RateLimiter

/-- An element indexed inside the prefix of an append decomposition. -/
theorem getElem_mem_front {A pre q1 : List ℚ} (hA : pre ++ q1 = A) {i : ℕ}
    (hi : i < pre.length) (h2 : i < A.length) : A[i] ∈ pre := by
  subst hA
  rw [List.getElem_append_left hi]
  exact List.getElem_mem hi

/-- The element sitting right after a known prefix of an append. -/
theorem getElem_at_front_end {A pre : List ℚ} {o : ℚ} {r : List ℚ}
    (hA : A = pre ++ o :: r) {i : ℕ} (hi : i = pre.length)
    (h2 : i < A.length) : A[i] = o := by
  subst hi
  subst hA
  rw [List.getElem_append_right (le_refl pre.length)]
  simp

/-- Run invariant relating the limiter queue to the full admission history
`A`: the queue is a suffix of `A` whose dropped prefix is expired relative
to the last admission, `A` is strictly increasing, and any `N`-apart
admissions are at least `W` apart in time. -/
structure Inv (N : ℕ) (W : ℚ) (q A : List ℚ) : Prop where
  decomp : ∃ pre, pre ++ q = A ∧
    ∀ a ∈ pre, ∀ l, A.getLast? = some l → a < l - W
  sorted : A.Sorted (· < ·)
  spread : Spread N W A

/-- One `acquire()` call preserves the invariant when its clock reading is
strictly later than the previous admission. -/
theorem acquire_inv (N : ℕ) (W : ℚ) (hN : 1 ≤ N) (hW : 0 < W)
    {q A : List ℚ} {t : ℚ} (inv : Inv N W q A)
    (ht : ∀ l, A.getLast? = some l → l < t) :
    Inv N W (acquire N W q t).queue (A ++ [(acquire N W q t).admitted]) ∧
    t ≤ (acquire N W q t).admitted := by
  obtain ⟨pre, hpre, hexp⟩ := inv.decomp
  have hqsub : List.Sublist q A := by
    rw [← hpre]
    exact List.sublist_append_right pre q
  have hqs : q.Sorted (· < ·) := List.Pairwise.sublist hqsub inv.sorted
  have hq1ge : ∀ a ∈ pruneQueue (t - W) q, t - W ≤ a :=
    mem_pruneQueue_ge _ q hqs
  have hpre1 :
      (pre ++ q.takeWhile (fun ts => decide (ts < t - W))) ++
        pruneQueue (t - W) q = A := by
    rw [List.append_assoc]
    rw [pruneQueue, List.takeWhile_append_dropWhile]
    exact hpre
  have hAlt : ∀ x ∈ A, x < t := by
    intro x hx
    obtain ⟨l, hl⟩ : ∃ l, A.getLast? = some l := by
      cases hA : A.getLast? with
      | some l => exact ⟨l, rfl⟩
      | none =>
        rw [List.getLast?_eq_none_iff] at hA
        subst hA
        simp at hx
    exact lt_of_le_of_lt (sorted_le_getLast inv.sorted hx hl) (ht l hl)
  have hpre1lt :
      ∀ a ∈ pre ++ q.takeWhile (fun ts => decide (ts < t - W)),
        a < t - W := by
    intro a ha
    rcases List.mem_append.mp ha with hp | htk
    · obtain ⟨l, hl⟩ : ∃ l, A.getLast? = some l := by
        cases hA : A.getLast? with
        | some l => exact ⟨l, rfl⟩
        | none =>
          rw [List.getLast?_eq_none_iff] at hA
          subst hA
          obtain ⟨hpnil, -⟩ := List.append_eq_nil.mp hpre
          subst hpnil
          simp at hp
      have h1 := hexp a hp l hl
      have h2 := ht l hl
      linarith
    · exact mem_prunedPart_lt _ q a htk
  have hlenle : (pruneQueue (t - W) q).length ≤ N :=
    pruned_length_le N W hpre1 inv.spread inv.sorted hq1ge ht
  have hsorted1 : (A ++ [t]).Sorted (· < ·) :=
    sorted_append_singleton inv.sorted hAlt
  by_cases hcap : N ≤ (pruneQueue (t - W) q).length
  · obtain ⟨oldest, rest, hq1⟩ :
        ∃ o r, pruneQueue (t - W) q = o :: r := by
      cases hq : pruneQueue (t - W) q with
      | nil =>
        rw [hq] at hcap
        simp at hcap
        omega
      | cons o r => exact ⟨o, r, rfl⟩
    have hq1len : (pruneQueue (t - W) q).length = N :=
      le_antisymm hlenle hcap
    have holdge : t - W ≤ oldest := by
      apply hq1ge
      rw [hq1]
      exact List.mem_cons_self oldest rest
    have hpre1A : (pre ++ q.takeWhile (fun ts => decide (ts < t - W))) ++
        (oldest :: rest) = A := by
      rw [← hq1]
      exact hpre1
    have hAeq : A = (pre ++ q.takeWhile (fun ts => decide (ts < t - W))) ++
        oldest :: rest := hpre1A.symm
    have hlenA : A.length =
        (pre ++ q.takeWhile (fun ts => decide (ts < t - W))).length + N := by
      rw [hAeq]
      rw [List.length_append]
      rw [show (oldest :: rest).length = N from by rw [← hq1]; exact hq1len]
    by_cases hwait : 0 < W - (t - oldest)
    · rw [acquire_eval_wait N W q t oldest rest hq1 hcap hwait]
      have hcut : t + (W - (t - oldest)) - W = oldest := by ring
      have hq2 : pruneQueue (t + (W - (t - oldest)) - W) (oldest :: rest) =
          oldest :: rest := by
        rw [hcut, pruneQueue, List.dropWhile_cons,
          if_neg (by simp [lt_irrefl])]
      rw [hq2]
      dsimp only
      refine ⟨⟨⟨pre ++ q.takeWhile (fun ts => decide (ts < t - W)), ?_, ?_⟩,
        ?_, ?_⟩, by linarith⟩
      · rw [← List.append_assoc, hpre1A]
      · intro a ha l hl
        rw [List.getLast?_concat] at hl
        obtain rfl := Option.some.inj hl
        have := hpre1lt a ha
        linarith
      · apply sorted_append_singleton inv.sorted
        intro x hx
        have := hAlt x hx
        linarith
      · apply spread_append_one hN inv.spread
        intro hNle h2
        rw [getElem_at_front_end hAeq (by omega) h2]
        linarith
    · rw [acquire_eval_nowait N W q t oldest rest hq1 hcap hwait]
      dsimp only
      have hnw : oldest + W ≤ t := by
        push_neg at hwait
        linarith
      refine ⟨⟨⟨pre ++ q.takeWhile (fun ts => decide (ts < t - W)), ?_, ?_⟩,
        hsorted1, ?_⟩, le_refl t⟩
      · rw [← List.append_assoc, hpre1A]
      · intro a ha l hl
        rw [List.getLast?_concat] at hl
        obtain rfl := Option.some.inj hl
        exact hpre1lt a ha
      · apply spread_append_one hN inv.spread
        intro hNle h2
        rw [getElem_at_front_end hAeq (by omega) h2]
        linarith
  · have hlow : (pruneQueue (t - W) q).length < N := by omega
    rw [acquire_eval_low N W q t hlow]
    dsimp only
    refine ⟨⟨⟨pre ++ q.takeWhile (fun ts => decide (ts < t - W)), ?_, ?_⟩,
      hsorted1, ?_⟩, le_refl t⟩
    · rw [← List.append_assoc, hpre1]
    · intro a ha l hl
      rw [List.getLast?_concat] at hl
      obtain rfl := Option.some.inj hl
      exact hpre1lt a ha
    · apply spread_append_one hN inv.spread
      intro hNle h2
      have hlenA : A.length =
          (pre ++ q.takeWhile (fun ts => decide (ts < t - W))).length +
            (pruneQueue (t - W) q).length := by
        rw [← hpre1]
        rw [List.length_append]
      have hidx : A.length - N <
          (pre ++ q.takeWhile (fun ts => decide (ts < t - W))).length := by
        omega
      have hmem : A[A.length - N] ∈
          pre ++ q.takeWhile (fun ts => decide (ts < t - W)) :=
        getElem_mem_front hpre1 hidx h2
      have := hpre1lt _ hmem
      linarith

end RateLimiter

namespace RateLimiter

/-- Monotonicity of a sorted list in `getElem` form. -/
theorem sorted_getElem_mono {A : List ℚ} (hs : A.Sorted (· < ·)) {i j : ℕ}
    (hij : i ≤ j) (hj : j < A.length) : A[i] ≤ A[j] := by
  have := sorted_getElem_le hs hij hj
  simpa [List.get_eq_getElem] using this

/-- If some element at index `k` of a sorted list already exceeds the window
end, at most `k` elements can lie in the window. -/
theorem count_window_le_idx (x W : ℚ) (L : List ℚ)
    (hs : L.Sorted (· < ·)) (k : ℕ) (hk : k < L.length)
    (hbig : x + W < L[k]) : windowCount x W L ≤ k := by
  have hdrop0 : ∀ a ∈ L.drop k,
      ¬ ((decide (x < a) && decide (a ≤ x + W)) = true) := by
    intro a ha
    obtain ⟨j, hj, hval⟩ := List.mem_iff_getElem.mp ha
    have hjlen : k + j < L.length := by
      have := hj
      rw [List.length_drop] at this
      omega
    have hdg : (L.drop k)[j] = L[k + j] := List.getElem_drop L
    have hmono : L[k] ≤ L[k + j] :=
      sorted_getElem_mono hs (by omega) hjlen
    have hagt : x + W < a := by
      rw [← hval, hdg]
      linarith
    simp only [Bool.and_eq_true, decide_eq_true_eq, not_and]
    intro _
    linarith
  have hsplit : windowCount x W L =
      windowCount x W (L.take k) + windowCount x W (L.drop k) := by
    rw [windowCount]
    conv_lhs => rw [← List.take_append_drop k L]
    rw [List.countP_append]
    rfl
  have hzero : windowCount x W (L.drop k) = 0 := by
    rw [windowCount]
    exact List.countP_eq_zero.mpr hdrop0
  have htake : windowCount x W (L.take k) ≤ k := by
    rw [windowCount]
    calc (L.take k).countP _ ≤ (L.take k).length := List.countP_le_length _
    _ ≤ k := by rw [List.length_take]; omega
  omega

/-- Sorted plus `N`-spread bounds every half-open window of length `W` to at
most `N` admissions. -/
theorem windowCount_le_of_spread (N : ℕ) (hN : 1 ≤ N) (W x : ℚ) :
    ∀ (A : List ℚ), A.Sorted (· < ·) → Spread N W A →
      windowCount x W A ≤ N := by
  obtain ⟨N0, rfl⟩ : ∃ N0, N = N0 + 1 := ⟨N - 1, by omega⟩
  intro A
  induction A with
  | nil =>
    intro _ _
    simp [windowCount]
  | cons a A ih =>
    intro hs hsp
    have hs2 := (List.sorted_cons.mp hs).2
    have hsp2 := Spread.tail hsp
    rw [windowCount, List.countP_cons]
    by_cases hwin : (decide (x < a) && decide (a ≤ x + W)) = true
    · rw [if_pos hwin]
      have hxa : x < a ∧ a ≤ x + W := by simpa using hwin
      by_cases hAlong : N0 + 1 ≤ A.length
      · have hb : 0 + (N0 + 1) < (a :: A).length := by
          simp only [List.length_cons]
          omega
        have h0 := hsp 0 hb
        simp only [Nat.zero_add, List.getElem_cons_succ,
          List.getElem_cons_zero] at h0
        have hbig : x + W < A[N0] := by linarith [hxa.1]
        have hcnt := count_window_le_idx x W A hs2 N0 (by omega) hbig
        rw [windowCount] at hcnt
        omega
      · have hlen : A.countP
            (fun a => decide (x < a) && decide (a ≤ x + W)) ≤ A.length :=
          List.countP_le_length _
        omega
    · rw [if_neg hwin]
      have := ih hs2 hsp2
      rw [windowCount] at this
      omega

/-- A whole run of `acquire()` calls preserves the invariant, provided each
call is strictly later than the previous admission. -/
theorem runAcquires_inv (N : ℕ) (W : ℚ) (hN : 1 ≤ N) (hW : 0 < W) :
    ∀ (calls q A : List ℚ), Inv N W q A →
      spacedFrom N W q A.getLast? calls = true →
      Inv N W (runAcquires N W q calls).1
        (A ++ (runAcquires N W q calls).2) := by
  intro calls
  induction calls with
  | nil =>
    intro q A inv _
    simpa [runAcquires] using inv
  | cons t ts ih =>
    intro q A inv hsp
    simp only [spacedFrom, Bool.and_eq_true] at hsp
    have ht : ∀ l, A.getLast? = some l → l < t := by
      intro l hl
      have h1 := hsp.1
      rw [hl] at h1
      simpa using h1
    obtain ⟨inv2, -⟩ := acquire_inv N W hN hW inv ht
    have hlast2 : (A ++ [(acquire N W q t).admitted]).getLast? =
        some (acquire N W q t).admitted := List.getLast?_concat A
    have hrec := ih (acquire N W q t).queue
      (A ++ [(acquire N W q t).admitted]) inv2
      (by rw [hlast2]; exact hsp.2)
    rw [runAcquires]
    simp only []
    rw [show A ++ (acquire N W q t).admitted ::
          (runAcquires N W (acquire N W q t).queue ts).2 =
        (A ++ [(acquire N W q t).admitted]) ++
          (runAcquires N W (acquire N W q t).queue ts).2 from by simp]
    exact hrec

end RateLimiter

section RateLimiterTheorems

open RateLimiter

/-- C2 counterexample: with capacity `N = 1` and window `W = 1`, the call
trace with clock readings `[0, 1, 1]` (the second and third calls arriving
exactly when the first admission turns `W` old — `wait_time` computes to 0,
so `acquire` admits without sleeping or pruning) produces admissions
`[0, 1, 1]`: the sliding window `(1/2, 3/2]` of length `W` contains 2 > N
admissions, refuting the claimed invariant for arbitrary call sequences. -/
theorem C2_counterexample :
    admissions 1 1 [0, 1, 1] = [0, 1, 1] ∧
    windowCount (1 / 2) 1 (admissions 1 1 [0, 1, 1]) = 2 ∧
    ¬ windowCount (1 / 2) 1 (admissions 1 1 [0, 1, 1]) ≤ 1 := by
  have hadm : admissions 1 1 [0, 1, 1] = [0, 1, 1] := by
    simp [admissions, runAcquires, acquire, pruneQueue]
  have hcnt : windowCount (1 / 2) 1 (admissions 1 1 [0, 1, 1]) = 2 := by
    rw [hadm]
    simp [windowCount, List.countP_cons]
    norm_num
  exact ⟨hadm, hcnt, by rw [hcnt]; norm_num⟩

/-- C2 amended: under a strictly advancing clock — each `acquire()` entry
reading strictly later than the previous admission (`spacedFrom`) — the
admission times are strictly increasing, any `N + 1` admissions that are
`N` apart span at least `W`, and hence no half-open sliding window of
length `W` contains more than `N` admissions; `acquire` itself never
errors, it only delays (it is a total function into queue-plus-admission
for every input). -/
theorem C2_spaced_acquires_window_bound (N : ℕ) (W : ℚ) (calls : List ℚ)
    (hN : 1 ≤ N) (hW : 0 < W)
    (hspaced : spacedFrom N W [] none calls = true) :
    (admissions N W calls).Sorted (· < ·) ∧
    Spread N W (admissions N W calls) ∧
    ∀ x : ℚ, windowCount x W (admissions N W calls) ≤ N := by
  have hinv0 : Inv N W ([] : List ℚ) [] :=
    ⟨⟨[], rfl, by simp⟩, List.sorted_nil, fun i h => by simp at h⟩
  have h := runAcquires_inv N W hN hW calls [] [] hinv0
    (by simpa using hspaced)
  rw [List.nil_append] at h
  simp only [admissions]
  exact ⟨h.sorted, h.spread, fun x =>
    windowCount_le_of_spread N hN W x _ h.sorted h.spread⟩

/-- C2 amended witness: capacity 2, window 10, spaced calls `[0, 1, 2]`
(the third call sleeps until time 10); the window starting at 0 holds at
most 2 admissions. -/
theorem C2_spaced_acquires_window_bound_witness :
    spacedFrom 2 10 [] none [0, 1, 2] = true ∧
    admissions 2 10 [0, 1, 2] = [0, 1, 10] ∧
    windowCount 0 10 (admissions 2 10 [0, 1, 2]) ≤ 2 := by
  have hsp : spacedFrom 2 10 [] none [0, 1, 2] = true := by
    simp [spacedFrom, acquire, pruneQueue]
  refine ⟨hsp, ?_, ?_⟩
  · simp [admissions, runAcquires, acquire, pruneQueue]
    norm_num
  · exact (C2_spaced_acquires_window_bound 2 10 [0, 1, 2] (by norm_num)
      (by norm_num) hsp).2.2 0

end RateLimiterTheorems
